import Mathlib

/-!
# Font harvesting for the spreadsheet XML export (`sc/source/filter/xml/xmlfonte.cxx`)

A shallow embedding of `ScXMLFontAutoStylePool_Impl::AddFontItems`, of the
constructor `ScXMLFontAutoStylePool_Impl::ScXMLFontAutoStylePool_Impl` and of
`ScXMLExport::CreateFontAutoStylePool`, followed by the properties proved about them.

Conventions of the embedding

* C++ object state is passed explicitly: every member function takes the object
  (`this`) and returns the updated object.
* Undefined behaviour (reading `pWhichIds[i]` past the end of the array, using
  `mpEditEnginePool.get()` while it is null) is the result `none`.
* `sal_uInt16` which-identifiers and enumeration values are natural numbers; the
  `sal_uInt8` count of `AddFontItems` is reduced modulo `2^8` on entry.
* Everything declared outside this translation unit (constants, the edit engine,
  the base-class defaults) is a field of `Env`.
-/

namespace XmlFontE

/-! ## Data model -/

/-- The font attribute `SvxFontItem`, seen through the five getters the harvester reads. -/
structure SvxFontItem where
  GetFamilyName : String
  GetStyleName : String
  GetFamily : Nat
  GetPitch : Nat
  GetCharSet : Nat
  deriving DecidableEq, Repr

/-- The argument tuple of one `XMLFontAutoStylePool::Add` call. -/
structure AddCall where
  rFamilyName : String
  rStyleName : String
  eFamily : Nat
  ePitch : Nat
  eEnc : Nat
  deriving DecidableEq, Repr

/-- An opaque handle for an `EditTextObject`; the class is declared outside this
translation unit and only the identity of a text object is used here. -/
structure EditTextObject where
  handle : Nat
  deriving DecidableEq, Repr

/-- The item pool `SfxItemPool`, seen through the two accessors used: the default item of
a which-identifier and the list of stored items (surrogates) of a which-identifier, in the
pool's own order. The parameter `Item` is the static type the caller casts the items to. -/
structure SfxItemPool (Item : Type) where
  GetDefaultItem : Nat → Item
  GetItemSurrogates : Nat → List Item

/-- The header/footer attribute `ScPageHFItem`: three text areas, each possibly null. -/
structure ScPageHFItem where
  GetLeftArea : Option EditTextObject
  GetCenterArea : Option EditTextObject
  GetRightArea : Option EditTextObject
  deriving DecidableEq, Repr

/-- The style-sheet pool `SfxStyleSheetBasePool`, reduced to the item pool it gives access to. -/
structure SfxStyleSheetBasePool where
  GetPool : SfxItemPool ScPageHFItem

/-- A style sheet `SfxStyleSheetBase`: the style-sheet pool it belongs to and its own
item set (which the harvester never reads). -/
structure SfxStyleSheetBase where
  GetPool : SfxStyleSheetBasePool
  GetItemSet : Nat → Option ScPageHFItem

/-- The document `ScDocument`, seen through the accessors the export code calls.
`CreatePageStyleIterator` stands for
`GetStyleSheetPool()->CreateIterator(SfxStyleFamily::Page)`: `none` is a null iterator,
`some styles` an iterator yielding `styles` (`First()`, then `Next()` until null). -/
structure ScDocument where
  GetPool : SfxItemPool SvxFontItem
  GetEditPool : SfxItemPool SvxFontItem
  CreatePageStyleIterator : Option (List SfxStyleSheetBase)
  IsEmbedFonts : Bool
  IsEmbedUsedFontsOnly : Bool
  IsEmbedFontScriptLatin : Bool
  IsEmbedFontScriptAsian : Bool
  IsEmbedFontScriptComplex : Bool

/-- The exporter `ScXMLExport`: its document and its export flags (a bit mask). -/
structure ScXMLExport where
  GetDocument : ScDocument
  getExportFlags : Nat

/-- Everything the translation unit uses but does not define: the flag constant
`SvXMLExportFlags::CONTENT`, the which-identifier constants, the pool returned by
`EditEngine::CreatePool()`, the effect of `EditEngine::SetText` on the pool the engine is
bound to, and the values the base-class constructor leaves in the four embedding flags. -/
structure Env where
  CONTENT : Nat
  ATTR_FONT : Nat
  ATTR_CJK_FONT : Nat
  ATTR_CTL_FONT : Nat
  EE_CHAR_FONTINFO : Nat
  EE_CHAR_FONTINFO_CJK : Nat
  EE_CHAR_FONTINFO_CTL : Nat
  ATTR_PAGE_HEADERLEFT : Nat
  ATTR_PAGE_FOOTERLEFT : Nat
  ATTR_PAGE_HEADERRIGHT : Nat
  ATTR_PAGE_FOOTERRIGHT : Nat
  CreatePool : SfxItemPool SvxFontItem
  SetText : EditTextObject → SfxItemPool SvxFontItem → SfxItemPool SvxFontItem
  baseEmbedUsedOnly : Bool
  baseEmbedLatinScript : Bool
  baseEmbedAsianScript : Bool
  baseEmbedComplexScript : Bool

/-- The object under construction. The first six fields are the `XMLFontAutoStylePool`
base sub-object (`bEmbedFonts` is the constructor argument handed to the base class,
`addCalls` the font pool as the log of `Add` calls received); `mpEditEnginePool` is the
owned pool (`none` = null). The last two fields are instrumentation: the number of
`EditEngine::CreatePool()` calls and the texts passed to `SetText` on the local engine. -/
structure ScXMLFontAutoStylePool_Impl where
  bEmbedFonts : Bool
  m_bEmbedUsedOnly : Bool
  m_bEmbedLatinScript : Bool
  m_bEmbedAsianScript : Bool
  m_bEmbedComplexScript : Bool
  addCalls : List AddCall
  mpEditEnginePool : Option (SfxItemPool SvxFontItem)
  nCreatePool : Nat
  setTextCalls : List EditTextObject

/-! ## Operations -/

/-- Modelled from the spec: `XMLFontAutoStylePool::Add` is defined outside this translation
unit; the font pool is the log of submitted descriptors, deduplication being "the pool's
responsibility, not this adapter's". -/
def ScXMLFontAutoStylePool_Impl.Add (self : ScXMLFontAutoStylePool_Impl)
    (rFamilyName rStyleName : String) (eFamily ePitch eEnc : Nat) :
    ScXMLFontAutoStylePool_Impl :=
  { self with addCalls := self.addCalls ++ [⟨rFamilyName, rStyleName, eFamily, ePitch, eEnc⟩] }

/-- The statement `Add(pFont->GetFamilyName(), ..., pFont->GetCharSet())`. -/
def addFont (self : ScXMLFontAutoStylePool_Impl) (pFont : SvxFontItem) :
    ScXMLFontAutoStylePool_Impl :=
  self.Add pFont.GetFamilyName pFont.GetStyleName pFont.GetFamily pFont.GetPitch
    pFont.GetCharSet

/-- The loop `for (sal_uInt16 i = 0; i < nIdCount; ++i)` of `AddFontItems`, entered with
`remaining = nIdCount - i` iterations to go. The counter stays below `2^8`, so the
`sal_uInt16` increment never wraps. -/
def AddFontItemsLoop (pWhichIds : List Nat) (pItemPool : SfxItemPool SvxFontItem)
    (bExportDefaults : Bool) :
    Nat → Nat → ScXMLFontAutoStylePool_Impl → Option ScXMLFontAutoStylePool_Impl
  | 0, _, self => some self
  | remaining + 1, i, self =>
    match pWhichIds[i]? with
    | none => none
    | some nWhichId =>
      let self1 :=
        if bExportDefaults then addFont self (pItemPool.GetDefaultItem nWhichId) else self
      let self2 := (pItemPool.GetItemSurrogates nWhichId).foldl addFont self1
      AddFontItemsLoop pWhichIds pItemPool bExportDefaults remaining (i + 1) self2

/-- `ScXMLFontAutoStylePool_Impl::AddFontItems(pWhichIds, nIdCount, pItemPool, bExportDefaults)`. -/
def AddFontItems (pWhichIds : List Nat) (nIdCount : Nat) (pItemPool : SfxItemPool SvxFontItem)
    (bExportDefaults : Bool) (self : ScXMLFontAutoStylePool_Impl) :
    Option ScXMLFontAutoStylePool_Impl :=
  AddFontItemsLoop pWhichIds pItemPool bExportDefaults (nIdCount % 256) 0 self

/-- The array `aWhichIds`. -/
def aWhichIds (env : Env) : List Nat :=
  [env.ATTR_FONT, env.ATTR_CJK_FONT, env.ATTR_CTL_FONT]

/-- The array `aEditWhichIds`. -/
def aEditWhichIds (env : Env) : List Nat :=
  [env.EE_CHAR_FONTINFO, env.EE_CHAR_FONTINFO_CJK, env.EE_CHAR_FONTINFO_CTL]

/-- The array `aPageWhichIds`. -/
def aPageWhichIds (env : Env) : List Nat :=
  [env.ATTR_PAGE_HEADERLEFT, env.ATTR_PAGE_FOOTERLEFT,
   env.ATTR_PAGE_HEADERRIGHT, env.ATTR_PAGE_FOOTERRIGHT]

/-- The two statements guarded by `if (pArea)`: `aEditEngine.SetText(*pArea)` followed by
`AddFontItems(aEditWhichIds, 3, mpEditEnginePool.get(), false)`. The engine is bound to
`mpEditEnginePool`, so `SetText` acts on that pool. -/
def harvestArea (env : Env) (pArea : EditTextObject) (self : ScXMLFontAutoStylePool_Impl) :
    Option ScXMLFontAutoStylePool_Impl :=
  match self.mpEditEnginePool with
  | none => none
  | some pool =>
    let pool1 := env.SetText pArea pool
    AddFontItems (aEditWhichIds env) 3 pool1 false
      { self with mpEditEnginePool := some pool1, setTextCalls := self.setTextCalls ++ [pArea] }

/-- One `if (pArea) { ... }` statement. -/
def harvestOptArea (env : Env) (pArea : Option EditTextObject)
    (self : ScXMLFontAutoStylePool_Impl) : Option ScXMLFontAutoStylePool_Impl :=
  match pArea with
  | some area => harvestArea env area self
  | none => some self

/-- The body of the loop over the surrogates of one page which-identifier: the left, the
centre and the right area of `pPageItem`, in this order. -/
def harvestPageItem (env : Env) (pPageItem : ScPageHFItem)
    (self : ScXMLFontAutoStylePool_Impl) : Option ScXMLFontAutoStylePool_Impl :=
  (harvestOptArea env pPageItem.GetLeftArea self).bind fun self1 =>
  (harvestOptArea env pPageItem.GetCenterArea self1).bind fun self2 =>
  harvestOptArea env pPageItem.GetRightArea self2

/-- The loop `for (const SfxPoolItem* pItem : rPagePool.GetItemSurrogates(nPageWhichId))`. -/
def harvestPageWhichId (env : Env) (rPagePool : SfxItemPool ScPageHFItem) (nPageWhichId : Nat)
    (self : ScXMLFontAutoStylePool_Impl) : Option ScXMLFontAutoStylePool_Impl :=
  (rPagePool.GetItemSurrogates nPageWhichId).foldlM
    (fun acc pPageItem => harvestPageItem env pPageItem acc) self

/-- The body of `while (pStyle)` up to `pStyle = pItr->Next()`: the loop
`for (sal_uInt16 nPageWhichId : aPageWhichIds)` over `pStyle->GetPool()->GetPool()`. -/
def harvestStyle (env : Env) (pStyle : SfxStyleSheetBase)
    (self : ScXMLFontAutoStylePool_Impl) : Option ScXMLFontAutoStylePool_Impl :=
  let rPagePool := pStyle.GetPool.GetPool
  (aPageWhichIds env).foldlM
    (fun acc nPageWhichId => harvestPageWhichId env rPagePool nPageWhichId acc) self

/-- The loop `while (pStyle) { ...; pStyle = pItr->Next(); }`, by recursion on the styles
the iterator still has to yield; the empty list is `pStyle == nullptr`. -/
def pageStyleLoop (env : Env) :
    List SfxStyleSheetBase → ScXMLFontAutoStylePool_Impl → Option ScXMLFontAutoStylePool_Impl
  | [], self => some self
  | pStyle :: rest, self =>
    match harvestStyle env pStyle self with
    | none => none
    | some self1 => pageStyleLoop env rest self1

/-- The base-class constructor `XMLFontAutoStylePool(rExportP, bEmbedFonts)` followed by the
default initialisation of `mpEditEnginePool`. -/
def baseCtor (env : Env) (bEmbedFonts : Bool) : ScXMLFontAutoStylePool_Impl :=
  { bEmbedFonts := bEmbedFonts
    m_bEmbedUsedOnly := env.baseEmbedUsedOnly
    m_bEmbedLatinScript := env.baseEmbedLatinScript
    m_bEmbedAsianScript := env.baseEmbedAsianScript
    m_bEmbedComplexScript := env.baseEmbedComplexScript
    addCalls := []
    mpEditEnginePool := none
    nCreatePool := 0
    setTextCalls := [] }

/-- The four assignments `m_bEmbed... = rExportP.GetDocument()->IsEmbed...()`. -/
def copyEmbedFlags (doc : ScDocument) (self : ScXMLFontAutoStylePool_Impl) :
    ScXMLFontAutoStylePool_Impl :=
  { self with
    m_bEmbedUsedOnly := doc.IsEmbedUsedFontsOnly
    m_bEmbedLatinScript := doc.IsEmbedFontScriptLatin
    m_bEmbedAsianScript := doc.IsEmbedFontScriptAsian
    m_bEmbedComplexScript := doc.IsEmbedFontScriptComplex }

/-- The part of the constructor after the four flag assignments: the two early returns,
`mpEditEnginePool.reset(EditEngine::CreatePool())` and the loop over the page styles.
Binding the local engine to the pool is taken to leave the pool as `CreatePool()` returned
it; the destruction of the local engine at the end of the constructor is not modelled. -/
def pageStylePhase (env : Env) (pItr : Option (List SfxStyleSheetBase))
    (self : ScXMLFontAutoStylePool_Impl) : Option ScXMLFontAutoStylePool_Impl :=
  match pItr with
  | none => some self
  | some [] => some self
  | some (pStyle :: rest) =>
    pageStyleLoop env (pStyle :: rest)
      { self with mpEditEnginePool := some env.CreatePool, nCreatePool := self.nCreatePool + 1 }

/-- The constructor `ScXMLFontAutoStylePool_Impl::ScXMLFontAutoStylePool_Impl(rExportP, bEmbedFonts)`. -/
def ctor (env : Env) (rExportP : ScXMLExport) (bEmbedFonts : Bool) :
    Option ScXMLFontAutoStylePool_Impl :=
  let self0 := baseCtor env bEmbedFonts
  let pItemPool := rExportP.GetDocument.GetPool
  match AddFontItems (aWhichIds env) 3 pItemPool true self0 with
  | none => none
  | some self1 =>
    let pEditPool := rExportP.GetDocument.GetEditPool
    match AddFontItems (aEditWhichIds env) 3 pEditPool false self1 with
    | none => none
    | some self2 =>
      let pItr := rExportP.GetDocument.CreatePageStyleIterator
      let self3 := copyEmbedFlags rExportP.GetDocument self2
      pageStylePhase env pItr self3

/-- `ScXMLExport::CreateFontAutoStylePool()`. -/
def CreateFontAutoStylePool (env : Env) (self : ScXMLExport) :
    Option ScXMLFontAutoStylePool_Impl :=
  let blockFontEmbedding := false
  let blockFontEmbedding :=
    if (self.getExportFlags &&& env.CONTENT) = 0 then true else blockFontEmbedding
  let blockFontEmbedding :=
    if !self.GetDocument.IsEmbedFonts then true else blockFontEmbedding
  ctor env self (!blockFontEmbedding)

/-! ## Specification-side descriptions -/

/-- The descriptor (family name, style name, family, pitch, charset) of a font item. -/
def descriptor (pFont : SvxFontItem) : AddCall :=
  ⟨pFont.GetFamilyName, pFont.GetStyleName, pFont.GetFamily, pFont.GetPitch, pFont.GetCharSet⟩

/-- The sequence of descriptors the harvester contract describes: for each identifier in
list order, the descriptor of the default item when `bExportDefaults` holds, then the
descriptor of each stored value in the surrogate order of the pool. -/
def fontDescriptors (ids : List Nat) (pool : SfxItemPool SvxFontItem) (bExportDefaults : Bool) :
    List AddCall :=
  ids.flatMap fun nWhichId =>
    (if bExportDefaults then [descriptor (pool.GetDefaultItem nWhichId)] else []) ++
      (pool.GetItemSurrogates nWhichId).map descriptor

/-- The object `self` after the `Add` calls `calls`, nothing else changed. -/
def appendCalls (self : ScXMLFontAutoStylePool_Impl) (calls : List AddCall) :
    ScXMLFontAutoStylePool_Impl :=
  { self with addCalls := self.addCalls ++ calls }

/-- The non-null areas of a header/footer item, in the order left, centre, right. -/
def nonNullAreas (item : ScPageHFItem) : List EditTextObject :=
  [item.GetLeftArea, item.GetCenterArea, item.GetRightArea].filterMap id

/-- The non-null areas of all header/footer items stored in `pool` under the four page
identifiers, identifier by identifier in array order, item by item in surrogate order. -/
def poolAreas (env : Env) (pool : SfxItemPool ScPageHFItem) : List EditTextObject :=
  [env.ATTR_PAGE_HEADERLEFT, env.ATTR_PAGE_FOOTERLEFT, env.ATTR_PAGE_HEADERRIGHT,
    env.ATTR_PAGE_FOOTERRIGHT].flatMap fun nPageWhichId =>
    (pool.GetItemSurrogates nPageWhichId).flatMap nonNullAreas

/-- The areas rendered for a list of page styles, style by style in iterator order. -/
def pageAreas (env : Env) (styles : List SfxStyleSheetBase) : List EditTextObject :=
  styles.flatMap fun pStyle => poolAreas env pStyle.GetPool.GetPool

/-- The edit-engine pool after the texts `texts` were loaded one after the other. -/
def poolAfter (env : Env) (texts : List EditTextObject) (pool : SfxItemPool SvxFontItem) :
    SfxItemPool SvxFontItem :=
  texts.foldl (fun p t => env.SetText t p) pool

/-- The `Add` calls of rendering `texts` one after the other into `pool`, each `SetText`
followed by the harvest of the three edit identifiers, without defaults, from the pool as
it is right after that `SetText`. -/
def harvestTexts (env : Env) :
    List EditTextObject → SfxItemPool SvxFontItem → List AddCall
  | [], _ => []
  | t :: ts, pool =>
    fontDescriptors [env.EE_CHAR_FONTINFO, env.EE_CHAR_FONTINFO_CJK, env.EE_CHAR_FONTINFO_CTL]
        (env.SetText t pool) false ++
      harvestTexts env ts (env.SetText t pool)

/-- The object `self` after the texts `texts` were rendered into the engine pool, which was
`pool` before: the harvested descriptors are appended to the log, the owned pool holds the
last text, and the rendered texts are recorded. -/
def rendered (env : Env) (texts : List EditTextObject) (pool : SfxItemPool SvxFontItem)
    (self : ScXMLFontAutoStylePool_Impl) : ScXMLFontAutoStylePool_Impl :=
  { self with
    addCalls := self.addCalls ++ harvestTexts env texts pool
    mpEditEnginePool := some (poolAfter env texts pool)
    setTextCalls := self.setTextCalls ++ texts }

/-- The styles a page-style iterator yields; a null iterator yields none. -/
def iteratorStyles (pItr : Option (List SfxStyleSheetBase)) : List SfxStyleSheetBase :=
  pItr.getD []

/-- The `Add` calls of the two document-level harvests: the cell-font identifiers of the
document pool with defaults, then the edit identifiers of the document edit pool without. -/
def documentFonts (env : Env) (doc : ScDocument) : List AddCall :=
  fontDescriptors [env.ATTR_FONT, env.ATTR_CJK_FONT, env.ATTR_CTL_FONT] doc.GetPool true ++
    fontDescriptors [env.EE_CHAR_FONTINFO, env.EE_CHAR_FONTINFO_CJK, env.EE_CHAR_FONTINFO_CTL]
      doc.GetEditPool false

/-- The constructed object described in closed form. -/
def ctorSpec (env : Env) (rExportP : ScXMLExport) (bEmbedFonts : Bool) :
    ScXMLFontAutoStylePool_Impl :=
  let doc := rExportP.GetDocument
  let styles := iteratorStyles doc.CreatePageStyleIterator
  { bEmbedFonts := bEmbedFonts
    m_bEmbedUsedOnly := doc.IsEmbedUsedFontsOnly
    m_bEmbedLatinScript := doc.IsEmbedFontScriptLatin
    m_bEmbedAsianScript := doc.IsEmbedFontScriptAsian
    m_bEmbedComplexScript := doc.IsEmbedFontScriptComplex
    addCalls := documentFonts env doc ++ harvestTexts env (pageAreas env styles) env.CreatePool
    mpEditEnginePool :=
      if styles.isEmpty then none
      else some (poolAfter env (pageAreas env styles) env.CreatePool)
    nCreatePool := if styles.isEmpty then 0 else 1
    setTextCalls := pageAreas env styles }

/-! ## Concrete data used to instantiate the theorems -/

def exFontA : SvxFontItem := ⟨"Liberation Sans", "Regular", 5, 2, 76⟩

def exFontB : SvxFontItem := ⟨"Noto Sans CJK SC", "", 0, 0, 76⟩

def exFontC : SvxFontItem := ⟨"DejaVu Serif", "Bold", 3, 2, 76⟩

/-- A font pool without stored values. -/
def exEmptyPool : SfxItemPool SvxFontItem :=
  { GetDefaultItem := fun _ => exFontA, GetItemSurrogates := fun _ => [] }

/-- The engine pool after a text was loaded: it holds the one font of that text. -/
def exTextPool (t : EditTextObject) : SfxItemPool SvxFontItem :=
  { GetDefaultItem := fun _ => exFontA
    GetItemSurrogates := fun nWhichId =>
      if nWhichId = 4014 then [if t.handle = 0 then exFontB else exFontC] else [] }

def exEnv : Env :=
  { CONTENT := 16
    ATTR_FONT := 100
    ATTR_CJK_FONT := 111
    ATTR_CTL_FONT := 116
    EE_CHAR_FONTINFO := 4014
    EE_CHAR_FONTINFO_CJK := 4043
    EE_CHAR_FONTINFO_CTL := 4044
    ATTR_PAGE_HEADERLEFT := 174
    ATTR_PAGE_FOOTERLEFT := 175
    ATTR_PAGE_HEADERRIGHT := 176
    ATTR_PAGE_FOOTERRIGHT := 177
    CreatePool := exEmptyPool
    SetText := fun t _ => exTextPool t
    baseEmbedUsedOnly := false
    baseEmbedLatinScript := true
    baseEmbedAsianScript := true
    baseEmbedComplexScript := true }

/-- A document pool: one stored cell font, none for the CJK and CTL identifiers. -/
def exDocPool : SfxItemPool SvxFontItem :=
  { GetDefaultItem := fun _ => exFontA
    GetItemSurrogates := fun nWhichId => if nWhichId = 100 then [exFontB, exFontB] else [] }

def exEditPool : SfxItemPool SvxFontItem :=
  { GetDefaultItem := fun _ => exFontA
    GetItemSurrogates := fun nWhichId => if nWhichId = 4014 then [exFontC] else [] }

/-- A page pool with a left header holding a left and a right area, and a left footer
whose three areas are null. -/
def exPagePool : SfxItemPool ScPageHFItem :=
  { GetDefaultItem := fun _ => ⟨none, none, none⟩
    GetItemSurrogates := fun nWhichId =>
      if nWhichId = 174 then [⟨some ⟨0⟩, none, some ⟨1⟩⟩]
      else if nWhichId = 175 then [⟨none, none, none⟩]
      else [] }

def exStyle : SfxStyleSheetBase :=
  { GetPool := ⟨exPagePool⟩, GetItemSet := fun _ => none }

/-- A second style of the same pool, with an item set of its own. -/
def exStyle2 : SfxStyleSheetBase :=
  { GetPool := ⟨exPagePool⟩, GetItemSet := fun _ => some ⟨some ⟨7⟩, none, none⟩ }

def exDoc (pItr : Option (List SfxStyleSheetBase)) : ScDocument :=
  { GetPool := exDocPool
    GetEditPool := exEditPool
    CreatePageStyleIterator := pItr
    IsEmbedFonts := true
    IsEmbedUsedFontsOnly := true
    IsEmbedFontScriptLatin := true
    IsEmbedFontScriptAsian := false
    IsEmbedFontScriptComplex := false }

def exExport (pItr : Option (List SfxStyleSheetBase)) : ScXMLExport :=
  { GetDocument := exDoc pItr, getExportFlags := 18 }

/-- An object right after the base-class constructor, with a non-null owned pool. -/
def exSelf : ScXMLFontAutoStylePool_Impl :=
  { baseCtor exEnv true with mpEditEnginePool := some exEmptyPool }

/-! ## Auxiliary lemmas -/

theorem appendCalls_nil (self : ScXMLFontAutoStylePool_Impl) : appendCalls self [] = self := by
  simp [appendCalls]

theorem appendCalls_appendCalls (self : ScXMLFontAutoStylePool_Impl) (xs ys : List AddCall) :
    appendCalls (appendCalls self xs) ys = appendCalls self (xs ++ ys) := by
  simp [appendCalls]

theorem addFont_eq (self : ScXMLFontAutoStylePool_Impl) (pFont : SvxFontItem) :
    addFont self pFont = appendCalls self [descriptor pFont] := rfl

theorem foldl_addFont (items : List SvxFontItem) (self : ScXMLFontAutoStylePool_Impl) :
    items.foldl addFont self = appendCalls self (items.map descriptor) := by
  induction items generalizing self with
  | nil => simp [appendCalls_nil]
  | cons x xs ih => simp [ih, addFont_eq, appendCalls_appendCalls]

theorem fontDescriptors_nil (pool : SfxItemPool SvxFontItem) (b : Bool) :
    fontDescriptors [] pool b = [] := rfl

theorem fontDescriptors_cons (nWhichId : Nat) (ids : List Nat) (pool : SfxItemPool SvxFontItem)
    (b : Bool) :
    fontDescriptors (nWhichId :: ids) pool b =
      ((if b then [descriptor (pool.GetDefaultItem nWhichId)] else []) ++
        (pool.GetItemSurrogates nWhichId).map descriptor) ++ fontDescriptors ids pool b := by
  simp [fontDescriptors]

theorem fontDescriptors_append (xs ys : List Nat) (pool : SfxItemPool SvxFontItem) (b : Bool) :
    fontDescriptors (xs ++ ys) pool b = fontDescriptors xs pool b ++ fontDescriptors ys pool b := by
  simp [fontDescriptors]

/-- The loop started at index `i` with `remaining` iterations to go, all inside the array,
submits the descriptors of the identifiers `i, ..., i + remaining - 1`. -/
theorem AddFontItemsLoop_eq (pWhichIds : List Nat) (pool : SfxItemPool SvxFontItem) (b : Bool)
    (remaining i : Nat) (self : ScXMLFontAutoStylePool_Impl)
    (h : i + remaining ≤ pWhichIds.length) :
    AddFontItemsLoop pWhichIds pool b remaining i self =
      some (appendCalls self (fontDescriptors ((pWhichIds.drop i).take remaining) pool b)) := by
  induction remaining generalizing i self with
  | zero => simp [AddFontItemsLoop, fontDescriptors_nil, appendCalls_nil]
  | succ r ih =>
    have hi : i < pWhichIds.length := by omega
    have hdrop : pWhichIds.drop i = pWhichIds[i] :: pWhichIds.drop (i + 1) :=
      List.drop_eq_getElem_cons hi
    rw [AddFontItemsLoop, List.getElem?_eq_getElem hi]
    simp only []
    rw [ih (i + 1) _ (by omega), hdrop, List.take_succ_cons, fontDescriptors_cons,
      foldl_addFont]
    cases b <;> simp [addFont_eq, appendCalls_appendCalls, appendCalls_nil]

/-- With the count equal to the array length (at most 255), the whole array is harvested. -/
theorem AddFontItems_eq (ids : List Nat) (pool : SfxItemPool SvxFontItem) (b : Bool)
    (self : ScXMLFontAutoStylePool_Impl) (h : ids.length ≤ 255) :
    AddFontItems ids ids.length pool b self =
      some (appendCalls self (fontDescriptors ids pool b)) := by
  have hmod : ids.length % 256 = ids.length := Nat.mod_eq_of_lt (by omega)
  rw [AddFontItems, hmod, AddFontItemsLoop_eq _ _ _ _ _ _ (by omega)]
  simp

theorem fontDescriptors_length (ids : List Nat) (pool : SfxItemPool SvxFontItem) (b : Bool) :
    (fontDescriptors ids pool b).length =
      (if b then ids.length else 0) +
        (ids.map fun nWhichId => (pool.GetItemSurrogates nWhichId).length).sum := by
  induction ids with
  | nil => simp [fontDescriptors_nil]
  | cons x xs ih =>
    rw [fontDescriptors_cons]
    cases b
    · simp [ih]
    · simp [ih]; omega

/-! ### The page-style phase as one pass over the rendered areas -/

theorem foldlM_flatMap_option {α β γ : Type} (f : γ → β → Option γ) (g : α → List β)
    (l : List α) (c : γ) :
    (l.flatMap g).foldlM f c = l.foldlM (fun acc a => (g a).foldlM f acc) c := by
  induction l generalizing c with
  | nil => simp
  | cons a l ih =>
    simp only [List.flatMap_cons, List.foldlM_append, List.foldlM_cons]
    cases h : (g a).foldlM f c with
    | none => simp
    | some c1 => simp [ih]

theorem harvestArea_eq (env : Env) (t : EditTextObject) (pool : SfxItemPool SvxFontItem)
    (self : ScXMLFontAutoStylePool_Impl) (h : self.mpEditEnginePool = some pool) :
    harvestArea env t self = some (rendered env [t] pool self) := by
  have h3 :
      [env.EE_CHAR_FONTINFO, env.EE_CHAR_FONTINFO_CJK, env.EE_CHAR_FONTINFO_CTL].length = 3 := rfl
  have := AddFontItems_eq
    [env.EE_CHAR_FONTINFO, env.EE_CHAR_FONTINFO_CJK, env.EE_CHAR_FONTINFO_CTL]
    (env.SetText t pool) false
    { self with mpEditEnginePool := some (env.SetText t pool),
                setTextCalls := self.setTextCalls ++ [t] } (by rw [h3]; omega)
  rw [h3] at this
  simp [harvestArea, aEditWhichIds, h, this, rendered, appendCalls, harvestTexts, poolAfter]

theorem rendered_nil (env : Env) (pool : SfxItemPool SvxFontItem)
    (self : ScXMLFontAutoStylePool_Impl) (h : self.mpEditEnginePool = some pool) :
    rendered env [] pool self = self := by
  cases self
  simp_all [rendered, harvestTexts, poolAfter]

theorem rendered_cons (env : Env) (t : EditTextObject) (ts : List EditTextObject)
    (pool : SfxItemPool SvxFontItem) (self : ScXMLFontAutoStylePool_Impl) :
    rendered env ts (env.SetText t pool) (rendered env [t] pool self) =
      rendered env (t :: ts) pool self := by
  simp [rendered, harvestTexts, poolAfter]

/-- Rendering a list of texts one after the other, started with a non-null owned pool. -/
theorem foldlM_harvestArea (env : Env) (texts : List EditTextObject)
    (pool : SfxItemPool SvxFontItem) (self : ScXMLFontAutoStylePool_Impl)
    (h : self.mpEditEnginePool = some pool) :
    texts.foldlM (fun acc t => harvestArea env t acc) self =
      some (rendered env texts pool self) := by
  induction texts generalizing pool self with
  | nil => simp [rendered_nil env pool self h]
  | cons t ts ih =>
    rw [List.foldlM_cons, harvestArea_eq env t pool self h]
    simp only [Option.some_bind, Option.bind_eq_bind]
    rw [ih (env.SetText t pool) _ (by simp [rendered, poolAfter]), rendered_cons]

theorem harvestPageItem_eq_foldlM (env : Env) (item : ScPageHFItem)
    (self : ScXMLFontAutoStylePool_Impl) :
    harvestPageItem env item self =
      (nonNullAreas item).foldlM (fun acc t => harvestArea env t acc) self := by
  obtain ⟨l, c, r⟩ := item
  cases l <;> cases c <;> cases r <;>
    simp [harvestPageItem, harvestOptArea, nonNullAreas, Option.bind_eq_bind]

theorem harvestStyle_eq_foldlM (env : Env) (pStyle : SfxStyleSheetBase)
    (self : ScXMLFontAutoStylePool_Impl) :
    harvestStyle env pStyle self =
      (poolAreas env pStyle.GetPool.GetPool).foldlM (fun acc t => harvestArea env t acc) self := by
  simp only [harvestStyle, aPageWhichIds, harvestPageWhichId, poolAreas, foldlM_flatMap_option,
    harvestPageItem_eq_foldlM]

theorem pageStyleLoop_eq_foldlM (env : Env) (styles : List SfxStyleSheetBase)
    (self : ScXMLFontAutoStylePool_Impl) :
    pageStyleLoop env styles self =
      (pageAreas env styles).foldlM (fun acc t => harvestArea env t acc) self := by
  induction styles generalizing self with
  | nil => simp [pageStyleLoop, pageAreas]
  | cons s rest ih =>
    simp only [pageStyleLoop, pageAreas, List.flatMap_cons, List.foldlM_append,
      harvestStyle_eq_foldlM]
    cases h : (poolAreas env s.GetPool.GetPool).foldlM (fun acc t => harvestArea env t acc) self with
    | none => simp
    | some self1 => simpa [pageAreas] using ih self1

/-! ### The constructor in closed form -/

theorem pageStylePhase_eq (env : Env) (pItr : Option (List SfxStyleSheetBase))
    (self : ScXMLFontAutoStylePool_Impl) :
    pageStylePhase env pItr self =
      some (if (iteratorStyles pItr).isEmpty then self
        else rendered env (pageAreas env (iteratorStyles pItr)) env.CreatePool
          { self with nCreatePool := self.nCreatePool + 1 }) := by
  match pItr with
  | none => simp [pageStylePhase, iteratorStyles]
  | some [] => simp [pageStylePhase, iteratorStyles]
  | some (s :: rest) =>
    rw [pageStylePhase, pageStyleLoop_eq_foldlM, foldlM_harvestArea env _ env.CreatePool _ rfl]
    simp [iteratorStyles, rendered]

theorem ctor_eq (env : Env) (rExportP : ScXMLExport) (bEmbedFonts : Bool) :
    ctor env rExportP bEmbedFonts = some (ctorSpec env rExportP bEmbedFonts) := by
  have h1 := AddFontItems_eq [env.ATTR_FONT, env.ATTR_CJK_FONT, env.ATTR_CTL_FONT]
    rExportP.GetDocument.GetPool true
    (baseCtor env bEmbedFonts) (by simp)
  have h2 := AddFontItems_eq
    [env.EE_CHAR_FONTINFO, env.EE_CHAR_FONTINFO_CJK, env.EE_CHAR_FONTINFO_CTL]
    rExportP.GetDocument.GetEditPool false
    (appendCalls (baseCtor env bEmbedFonts)
      (fontDescriptors [env.ATTR_FONT, env.ATTR_CJK_FONT, env.ATTR_CTL_FONT]
        rExportP.GetDocument.GetPool true))
    (by simp)
  have l1 : [env.ATTR_FONT, env.ATTR_CJK_FONT, env.ATTR_CTL_FONT].length = 3 := rfl
  have l2 :
      [env.EE_CHAR_FONTINFO, env.EE_CHAR_FONTINFO_CJK, env.EE_CHAR_FONTINFO_CTL].length = 3 := rfl
  rw [l1] at h1
  rw [l2] at h2
  simp only [ctor, aWhichIds, aEditWhichIds, h1, h2, pageStylePhase_eq]
  by_cases hs : (iteratorStyles rExportP.GetDocument.CreatePageStyleIterator).isEmpty = true
  · have hnil : iteratorStyles rExportP.GetDocument.CreatePageStyleIterator = [] :=
      List.isEmpty_iff.mp hs
    simp [ctorSpec, hnil, copyEmbedFlags, appendCalls, baseCtor, documentFonts, pageAreas,
      harvestTexts]
  · simp [ctorSpec, hs, copyEmbedFlags, appendCalls, baseCtor, documentFonts, rendered]

theorem harvestTexts_append (env : Env) (xs ys : List EditTextObject)
    (pool : SfxItemPool SvxFontItem) :
    harvestTexts env (xs ++ ys) pool =
      harvestTexts env xs pool ++ harvestTexts env ys (poolAfter env xs pool) := by
  induction xs generalizing pool with
  | nil => simp [harvestTexts, poolAfter]
  | cons x xs ih => simp [harvestTexts, poolAfter, ih]

theorem mem_fontDescriptors_stored (ids : List Nat) (pool : SfxItemPool SvxFontItem) (b : Bool)
    (nWhichId : Nat) (hid : nWhichId ∈ ids) (pFont : SvxFontItem)
    (hf : pFont ∈ pool.GetItemSurrogates nWhichId) :
    descriptor pFont ∈ fontDescriptors ids pool b := by
  simp only [fontDescriptors, List.mem_flatMap, List.mem_append, List.mem_map]
  exact ⟨nWhichId, hid, Or.inr ⟨pFont, hf, rfl⟩⟩

theorem mem_fontDescriptors_default (ids : List Nat) (pool : SfxItemPool SvxFontItem)
    (nWhichId : Nat) (hid : nWhichId ∈ ids) :
    descriptor (pool.GetDefaultItem nWhichId) ∈ fontDescriptors ids pool true := by
  simp only [fontDescriptors, List.mem_flatMap, List.mem_append]
  exact ⟨nWhichId, hid, Or.inl (by simp)⟩

theorem mem_pageAreas (env : Env) (styles : List SfxStyleSheetBase) (pStyle : SfxStyleSheetBase)
    (hs : pStyle ∈ styles) (nPageWhichId : Nat)
    (hid : nPageWhichId ∈ [env.ATTR_PAGE_HEADERLEFT, env.ATTR_PAGE_FOOTERLEFT,
      env.ATTR_PAGE_HEADERRIGHT, env.ATTR_PAGE_FOOTERRIGHT])
    (item : ScPageHFItem) (hitem : item ∈ pStyle.GetPool.GetPool.GetItemSurrogates nPageWhichId)
    (t : EditTextObject) (ht : t ∈ nonNullAreas item) :
    t ∈ pageAreas env styles := by
  simp only [pageAreas, poolAreas, List.mem_flatMap]
  exact ⟨pStyle, hs, nPageWhichId, hid, item, hitem, ht⟩

/-- When `SetText` determines the pool from the text alone, the harvest of a list of texts
does not depend on the pool it starts from. -/
theorem harvestTexts_indep (env : Env) (hdet : ∀ t p q, env.SetText t p = env.SetText t q)
    (ts : List EditTextObject) (p q : SfxItemPool SvxFontItem) :
    harvestTexts env ts p = harvestTexts env ts q := by
  cases ts with
  | nil => rfl
  | cons t ts => simp only [harvestTexts, hdet t p q]

theorem harvestTexts_replicate (env : Env) (hdet : ∀ t p q, env.SetText t p = env.SetText t q)
    (texts : List EditTextObject) (n : Nat) (p : SfxItemPool SvxFontItem) :
    harvestTexts env (List.replicate n texts).flatten p =
      (List.replicate n (harvestTexts env texts p)).flatten := by
  induction n with
  | zero => simp [harvestTexts]
  | succ n ih =>
    simp only [List.replicate_succ, List.flatten_cons, harvestTexts_append]
    rw [harvestTexts_indep env hdet _ (poolAfter env texts p) p, ih]

theorem pageAreas_same_pool (env : Env) (styles : List SfxStyleSheetBase)
    (P : SfxItemPool ScPageHFItem) (hpool : ∀ s ∈ styles, s.GetPool.GetPool = P) :
    pageAreas env styles = (List.replicate styles.length (poolAreas env P)).flatten := by
  induction styles with
  | nil => simp [pageAreas]
  | cons s rest ih =>
    have hs : s.GetPool.GetPool = P := hpool s (by simp)
    have hrest := ih (fun s' h' => hpool s' (by simp [h']))
    simp only [pageAreas, List.flatMap_cons, List.length_cons, List.replicate_succ,
      List.flatten_cons, hs] at hrest ⊢
    rw [hrest]

theorem pageAreas_eq_map (env : Env) (styles : List SfxStyleSheetBase) :
    pageAreas env styles =
      (styles.map fun s => s.GetPool.GetPool).flatMap (poolAreas env) := by
  induction styles with
  | nil => rfl
  | cons s rest ih =>
    simp only [pageAreas, List.flatMap_cons, List.map_cons] at ih ⊢
    rw [ih]

/-! ## The harvester contract -/

/-- C1: with the font pool as the log of `Add` calls, `AddFontItems` on an identifier list of
length at most 255 returns, and it appends to the log exactly, for each identifier in list
order, the descriptor of the default item if `bExportDefaults` holds and then the descriptor
of each stored value in surrogate order; so it makes (length of the list if
`bExportDefaults`, else 0) plus (total number of stored values over the list) calls. -/
theorem AddFontItems_appends_descriptors (ids : List Nat) (pool : SfxItemPool SvxFontItem)
    (bExportDefaults : Bool) (self : ScXMLFontAutoStylePool_Impl) (hlen : ids.length ≤ 255) :
    AddFontItems ids ids.length pool bExportDefaults self =
        some { self with addCalls := self.addCalls ++ fontDescriptors ids pool bExportDefaults } ∧
      (fontDescriptors ids pool bExportDefaults).length =
        (if bExportDefaults then ids.length else 0) +
          (ids.map fun nWhichId => (pool.GetItemSurrogates nWhichId).length).sum :=
  ⟨AddFontItems_eq ids pool bExportDefaults self hlen,
    fontDescriptors_length ids pool bExportDefaults⟩

theorem AddFontItems_appends_descriptors_witness :
    [100, 111].length ≤ 255 ∧
      (AddFontItems [100, 111] [100, 111].length exDocPool true exSelf =
          some { exSelf with
            addCalls := exSelf.addCalls ++ fontDescriptors [100, 111] exDocPool true } ∧
        (fontDescriptors [100, 111] exDocPool true).length =
          (if true then [100, 111].length else 0) +
            ([100, 111].map fun nWhichId => (exDocPool.GetItemSurrogates nWhichId).length).sum) :=
  ⟨by decide, AddFontItems_appends_descriptors [100, 111] exDocPool true exSelf (by decide)⟩

/-- C8: an identifier without stored value contributes no call from its stored-value loop
(only its default, when defaults are exported) and the identifiers before and after it are
harvested as usual; with `bExportDefaults = false` and no stored value for any listed
identifier, `AddFontItems` returns the object unchanged, so it makes no `Add` call. -/
theorem AddFontItems_skips_absent (pre post ids : List Nat) (nWhichId : Nat)
    (pool : SfxItemPool SvxFontItem) (bExportDefaults : Bool)
    (self : ScXMLFontAutoStylePool_Impl)
    (hlen : (pre ++ nWhichId :: post).length ≤ 255)
    (habsent : pool.GetItemSurrogates nWhichId = [])
    (hlen2 : ids.length ≤ 255)
    (hnone : ∀ id ∈ ids, pool.GetItemSurrogates id = []) :
    AddFontItems (pre ++ nWhichId :: post) (pre ++ nWhichId :: post).length pool
        bExportDefaults self =
        some { self with
          addCalls := self.addCalls ++
            (fontDescriptors pre pool bExportDefaults ++
              (if bExportDefaults then [descriptor (pool.GetDefaultItem nWhichId)] else []) ++
              fontDescriptors post pool bExportDefaults) } ∧
      AddFontItems ids ids.length pool false self = some self := by
  constructor
  · rw [AddFontItems_eq _ pool bExportDefaults self hlen, fontDescriptors_append,
      fontDescriptors_cons, habsent]
    simp [appendCalls]
  · rw [AddFontItems_eq _ pool false self hlen2]
    have hnil : fontDescriptors ids pool false = [] := by
      simp only [fontDescriptors, List.flatMap_eq_nil_iff]
      intro id hid
      simp [hnone id hid]
    rw [hnil, appendCalls_nil]

theorem AddFontItems_skips_absent_witness :
    ([100] ++ 111 :: [116]).length ≤ 255 ∧ exDocPool.GetItemSurrogates 111 = [] ∧
      [111, 116].length ≤ 255 ∧ (∀ id ∈ [111, 116], exDocPool.GetItemSurrogates id = []) ∧
      (AddFontItems ([100] ++ 111 :: [116]) ([100] ++ 111 :: [116]).length exDocPool
          true exSelf =
          some { exSelf with
            addCalls := exSelf.addCalls ++
              (fontDescriptors [100] exDocPool true ++
                (if true then [descriptor (exDocPool.GetDefaultItem 111)] else []) ++
                fontDescriptors [116] exDocPool true) } ∧
        AddFontItems [111, 116] [111, 116].length exDocPool false exSelf = some exSelf) :=
  ⟨by decide, by decide, by decide, by decide,
    AddFontItems_skips_absent [100] [116] [111, 116] 111 exDocPool true exSelf
      (by decide) (by decide) (by decide) (by decide)⟩

/-! ## The factory decision and the embedding flags -/

/-- C2: `CreateFontAutoStylePool` returns a pool, and that pool was constructed with
`bEmbedFonts = true` exactly when the export flags include `CONTENT` and the document has
`IsEmbedFonts()`; the four per-script and used-only settings of the document play no role. -/
theorem CreateFontAutoStylePool_embedding (env : Env) (rExport : ScXMLExport) :
    ∃ pool, CreateFontAutoStylePool env rExport = some pool ∧
      (pool.bEmbedFonts = true ↔
        ((rExport.getExportFlags &&& env.CONTENT) ≠ 0 ∧
          rExport.GetDocument.IsEmbedFonts = true)) := by
  refine ⟨_, ctor_eq env rExport _, ?_⟩
  by_cases hc : (rExport.getExportFlags &&& env.CONTENT) = 0 <;>
    cases hf : rExport.GetDocument.IsEmbedFonts <;> simp [ctorSpec, hc, hf]

/-- C3: the constructor returns, and the four flags of the constructed pool equal the four
settings of the document, whatever the page-style iterator yields and whatever
`bEmbedFonts` is. -/
theorem ctor_copies_embed_flags (env : Env) (rExportP : ScXMLExport) (bEmbedFonts : Bool) :
    ∃ pool, ctor env rExportP bEmbedFonts = some pool ∧
      pool.m_bEmbedUsedOnly = rExportP.GetDocument.IsEmbedUsedFontsOnly ∧
      pool.m_bEmbedLatinScript = rExportP.GetDocument.IsEmbedFontScriptLatin ∧
      pool.m_bEmbedAsianScript = rExportP.GetDocument.IsEmbedFontScriptAsian ∧
      pool.m_bEmbedComplexScript = rExportP.GetDocument.IsEmbedFontScriptComplex :=
  ⟨_, ctor_eq env rExportP bEmbedFonts, rfl, rfl, rfl, rfl⟩

/-- C4: when the page-style iterator is null or yields no first style, the constructor
returns and its `Add` calls are exactly those of `AddFontItems` on
`{ATTR_FONT, ATTR_CJK_FONT, ATTR_CTL_FONT}`, count 3, the document pool, with defaults,
followed by those of `AddFontItems` on
`{EE_CHAR_FONTINFO, EE_CHAR_FONTINFO_CJK, EE_CHAR_FONTINFO_CTL}`, count 3, the document edit
pool, without defaults; no text is rendered and the owned pool is neither created nor set. -/
theorem ctor_without_page_styles (env : Env) (rExportP : ScXMLExport) (bEmbedFonts : Bool)
    (h : rExportP.GetDocument.CreatePageStyleIterator = none ∨
      rExportP.GetDocument.CreatePageStyleIterator = some []) :
    ∃ self1 self2 pool,
      AddFontItems [env.ATTR_FONT, env.ATTR_CJK_FONT, env.ATTR_CTL_FONT] 3
          rExportP.GetDocument.GetPool true (baseCtor env bEmbedFonts) = some self1 ∧
      AddFontItems [env.EE_CHAR_FONTINFO, env.EE_CHAR_FONTINFO_CJK, env.EE_CHAR_FONTINFO_CTL] 3
          rExportP.GetDocument.GetEditPool false self1 = some self2 ∧
      ctor env rExportP bEmbedFonts = some pool ∧
      pool.addCalls = self2.addCalls ∧
      pool.addCalls =
        fontDescriptors [env.ATTR_FONT, env.ATTR_CJK_FONT, env.ATTR_CTL_FONT]
            rExportP.GetDocument.GetPool true ++
          fontDescriptors
            [env.EE_CHAR_FONTINFO, env.EE_CHAR_FONTINFO_CJK, env.EE_CHAR_FONTINFO_CTL]
            rExportP.GetDocument.GetEditPool false ∧
      pool.setTextCalls = [] ∧ pool.nCreatePool = 0 ∧ pool.mpEditEnginePool.isNone = true := by
  have hnil : iteratorStyles rExportP.GetDocument.CreatePageStyleIterator = [] := by
    rcases h with h | h <;> simp [h, iteratorStyles]
  refine ⟨_, _, _,
    AddFontItems_eq [env.ATTR_FONT, env.ATTR_CJK_FONT, env.ATTR_CTL_FONT]
      rExportP.GetDocument.GetPool true (baseCtor env bEmbedFonts) (by simp),
    AddFontItems_eq [env.EE_CHAR_FONTINFO, env.EE_CHAR_FONTINFO_CJK, env.EE_CHAR_FONTINFO_CTL]
      rExportP.GetDocument.GetEditPool false _ (by simp),
    ctor_eq env rExportP bEmbedFonts, ?_, ?_, ?_, ?_, ?_⟩ <;>
    simp [ctorSpec, hnil, pageAreas, harvestTexts, documentFonts, appendCalls, baseCtor]

theorem ctor_without_page_styles_witness :
    ((exExport none).GetDocument.CreatePageStyleIterator = none ∨
        (exExport none).GetDocument.CreatePageStyleIterator = some []) ∧
      ∃ self1 self2 pool,
        AddFontItems [exEnv.ATTR_FONT, exEnv.ATTR_CJK_FONT, exEnv.ATTR_CTL_FONT] 3
            (exExport none).GetDocument.GetPool true (baseCtor exEnv true) = some self1 ∧
        AddFontItems
            [exEnv.EE_CHAR_FONTINFO, exEnv.EE_CHAR_FONTINFO_CJK, exEnv.EE_CHAR_FONTINFO_CTL] 3
            (exExport none).GetDocument.GetEditPool false self1 = some self2 ∧
        ctor exEnv (exExport none) true = some pool ∧
        pool.addCalls = self2.addCalls ∧
        pool.addCalls =
          fontDescriptors [exEnv.ATTR_FONT, exEnv.ATTR_CJK_FONT, exEnv.ATTR_CTL_FONT]
              (exExport none).GetDocument.GetPool true ++
            fontDescriptors
              [exEnv.EE_CHAR_FONTINFO, exEnv.EE_CHAR_FONTINFO_CJK, exEnv.EE_CHAR_FONTINFO_CTL]
              (exExport none).GetDocument.GetEditPool false ∧
        pool.setTextCalls = [] ∧ pool.nCreatePool = 0 ∧
        pool.mpEditEnginePool.isNone = true :=
  ⟨Or.inl rfl, ctor_without_page_styles exEnv (exExport none) true (Or.inl rfl)⟩

/-! ## The construction-time procedure -/

/-- C6: the constructor returns, and its `Add` calls are, in this order, the harvest of
`ATTR_FONT, ATTR_CJK_FONT, ATTR_CTL_FONT` from the document pool with defaults, the harvest
of `EE_CHAR_FONTINFO, EE_CHAR_FONTINFO_CJK, EE_CHAR_FONTINFO_CTL` from the document edit pool
without defaults, and then, style by style in iterator order, page identifier by page
identifier (HEADERLEFT, FOOTERLEFT, HEADERRIGHT, FOOTERRIGHT), item by item in surrogate
order, non-null area by non-null area (left, centre, right), the harvest of the three edit
identifiers without defaults from the owned pool as it is right after `SetText` of that
area; the last three conjuncts spell out the list of rendered areas and the harvest of a
list of areas. -/
theorem ctor_add_sequence (env : Env) (rExportP : ScXMLExport) (bEmbedFonts : Bool) :
    ∃ pool, ctor env rExportP bEmbedFonts = some pool ∧
      pool.addCalls =
        fontDescriptors [env.ATTR_FONT, env.ATTR_CJK_FONT, env.ATTR_CTL_FONT]
            rExportP.GetDocument.GetPool true ++
          fontDescriptors
            [env.EE_CHAR_FONTINFO, env.EE_CHAR_FONTINFO_CJK, env.EE_CHAR_FONTINFO_CTL]
            rExportP.GetDocument.GetEditPool false ++
          harvestTexts env
            (pageAreas env (iteratorStyles rExportP.GetDocument.CreatePageStyleIterator))
            env.CreatePool ∧
      pageAreas env (iteratorStyles rExportP.GetDocument.CreatePageStyleIterator) =
        ((iteratorStyles rExportP.GetDocument.CreatePageStyleIterator).flatMap fun pStyle =>
          [env.ATTR_PAGE_HEADERLEFT, env.ATTR_PAGE_FOOTERLEFT, env.ATTR_PAGE_HEADERRIGHT,
            env.ATTR_PAGE_FOOTERRIGHT].flatMap fun nPageWhichId =>
            (pStyle.GetPool.GetPool.GetItemSurrogates nPageWhichId).flatMap fun pPageItem =>
              [pPageItem.GetLeftArea, pPageItem.GetCenterArea,
                pPageItem.GetRightArea].filterMap id) ∧
      (∀ enginePool, harvestTexts env [] enginePool = []) ∧
      (∀ area areas enginePool,
        harvestTexts env (area :: areas) enginePool =
          fontDescriptors
              [env.EE_CHAR_FONTINFO, env.EE_CHAR_FONTINFO_CJK, env.EE_CHAR_FONTINFO_CTL]
              (env.SetText area enginePool) false ++
            harvestTexts env areas (env.SetText area enginePool)) :=
  ⟨_, ctor_eq env rExportP bEmbedFonts, rfl, rfl, fun _ => rfl, fun _ _ _ => rfl⟩

/-- C5: the constructor returns, and its `Add` calls contain (i) the descriptor of the default
and of every stored value of `ATTR_FONT`, `ATTR_CJK_FONT` and `ATTR_CTL_FONT` in the document
pool, (ii) the descriptor of every stored value of `EE_CHAR_FONTINFO`,
`EE_CHAR_FONTINFO_CJK` and `EE_CHAR_FONTINFO_CTL` in the document edit pool, and (iii) for
every occurrence of an area in the list of rendered areas, the descriptor of every value
stored under the three edit identifiers in the owned pool right after that area was
loaded. The list of rendered areas is spelled out, and every non-null left, centre or right
area of every item stored under `ATTR_PAGE_HEADERLEFT`, `ATTR_PAGE_FOOTERLEFT`,
`ATTR_PAGE_HEADERRIGHT` or `ATTR_PAGE_FOOTERRIGHT` in the pool of a page style occurs in it. -/
theorem ctor_submits_every_font (env : Env) (rExportP : ScXMLExport) (bEmbedFonts : Bool) :
    ∃ pool, ctor env rExportP bEmbedFonts = some pool ∧
      (∀ nWhichId ∈ [env.ATTR_FONT, env.ATTR_CJK_FONT, env.ATTR_CTL_FONT],
        descriptor (rExportP.GetDocument.GetPool.GetDefaultItem nWhichId) ∈ pool.addCalls ∧
        ∀ pFont ∈ rExportP.GetDocument.GetPool.GetItemSurrogates nWhichId,
          descriptor pFont ∈ pool.addCalls) ∧
      (∀ nWhichId ∈
          [env.EE_CHAR_FONTINFO, env.EE_CHAR_FONTINFO_CJK, env.EE_CHAR_FONTINFO_CTL],
        ∀ pFont ∈ rExportP.GetDocument.GetEditPool.GetItemSurrogates nWhichId,
          descriptor pFont ∈ pool.addCalls) ∧
      pageAreas env (iteratorStyles rExportP.GetDocument.CreatePageStyleIterator) =
        ((iteratorStyles rExportP.GetDocument.CreatePageStyleIterator).flatMap fun pStyle =>
          [env.ATTR_PAGE_HEADERLEFT, env.ATTR_PAGE_FOOTERLEFT, env.ATTR_PAGE_HEADERRIGHT,
            env.ATTR_PAGE_FOOTERRIGHT].flatMap fun nPageWhichId =>
            (pStyle.GetPool.GetPool.GetItemSurrogates nPageWhichId).flatMap fun pPageItem =>
              [pPageItem.GetLeftArea, pPageItem.GetCenterArea,
                pPageItem.GetRightArea].filterMap id) ∧
      (∀ before area after,
        pageAreas env (iteratorStyles rExportP.GetDocument.CreatePageStyleIterator) =
          before ++ area :: after →
        ∀ nWhichId ∈
          [env.EE_CHAR_FONTINFO, env.EE_CHAR_FONTINFO_CJK, env.EE_CHAR_FONTINFO_CTL],
        ∀ pFont ∈ (env.SetText area
            (before.foldl (fun enginePool t => env.SetText t enginePool)
              env.CreatePool)).GetItemSurrogates nWhichId,
          descriptor pFont ∈ pool.addCalls) ∧
      (∀ pStyle ∈ iteratorStyles rExportP.GetDocument.CreatePageStyleIterator,
        ∀ nPageWhichId ∈
          [env.ATTR_PAGE_HEADERLEFT, env.ATTR_PAGE_FOOTERLEFT, env.ATTR_PAGE_HEADERRIGHT,
            env.ATTR_PAGE_FOOTERRIGHT],
        ∀ pPageItem ∈ pStyle.GetPool.GetPool.GetItemSurrogates nPageWhichId,
        ∀ area,
          (pPageItem.GetLeftArea = some area ∨ pPageItem.GetCenterArea = some area ∨
            pPageItem.GetRightArea = some area) →
          ∃ before after,
            pageAreas env (iteratorStyles rExportP.GetDocument.CreatePageStyleIterator) =
              before ++ area :: after) := by
  refine ⟨_, ctor_eq env rExportP bEmbedFonts, ?_, ?_, rfl, ?_, ?_⟩
  · intro id hid
    refine ⟨?_, fun f hf => ?_⟩
    · simp only [ctorSpec, documentFonts, List.mem_append]
      exact Or.inl (Or.inl (mem_fontDescriptors_default _ _ id hid))
    · simp only [ctorSpec, documentFonts, List.mem_append]
      exact Or.inl (Or.inl (mem_fontDescriptors_stored _ _ _ id hid f hf))
  · intro id hid f hf
    simp only [ctorSpec, documentFonts, List.mem_append]
    exact Or.inl (Or.inr (mem_fontDescriptors_stored _ _ _ id hid f hf))
  · intro before area after hsplit id hid f hf
    simp only [ctorSpec, hsplit, harvestTexts_append, harvestTexts, List.mem_append]
    exact Or.inr (Or.inr (Or.inl (mem_fontDescriptors_stored _ _ _ id hid f hf)))
  · intro pStyle hs id hid item hitem area harea
    have hmem : area ∈ nonNullAreas item := by
      simp only [nonNullAreas, List.mem_filterMap, List.mem_cons, List.mem_singleton,
        List.not_mem_nil, or_false, id_eq]
      rcases harea with h | h | h
      · exact ⟨_, Or.inl rfl, h⟩
      · exact ⟨_, Or.inr (Or.inl rfl), h⟩
      · exact ⟨_, Or.inr (Or.inr rfl), h⟩
    obtain ⟨before, after, h⟩ :=
      List.append_of_mem (mem_pageAreas env _ pStyle hs id hid item hitem area hmem)
    exact ⟨before, after, h⟩

/-- C7: processing one header/footer item is rendering exactly its non-null areas, in the
order left, centre, right: each of them gets its `SetText` and its harvest, a null area gets
neither, and an item whose three areas are null leaves the object (log of `Add` calls and
owned pool included) unchanged. -/
theorem harvestPageItem_skips_null_areas (env : Env) (pPageItem : ScPageHFItem)
    (self : ScXMLFontAutoStylePool_Impl) (pool : SfxItemPool SvxFontItem)
    (hpool : self.mpEditEnginePool = some pool) :
    harvestPageItem env pPageItem self =
        (nonNullAreas pPageItem).foldlM (fun acc area => harvestArea env area acc) self ∧
      (∃ result, harvestPageItem env pPageItem self = some result ∧
        result.setTextCalls = self.setTextCalls ++ nonNullAreas pPageItem ∧
        result.addCalls = self.addCalls ++ harvestTexts env (nonNullAreas pPageItem) pool ∧
        result.mpEditEnginePool = some (poolAfter env (nonNullAreas pPageItem) pool)) ∧
      nonNullAreas pPageItem =
        [pPageItem.GetLeftArea, pPageItem.GetCenterArea, pPageItem.GetRightArea].filterMap id ∧
      harvestPageItem env ⟨none, none, none⟩ self = some self := by
  have hres : harvestPageItem env pPageItem self =
      some (rendered env (nonNullAreas pPageItem) pool self) := by
    rw [harvestPageItem_eq_foldlM, foldlM_harvestArea env _ pool self hpool]
  exact ⟨harvestPageItem_eq_foldlM env pPageItem self, ⟨_, hres, rfl, rfl, rfl⟩, rfl, rfl⟩

theorem harvestPageItem_skips_null_areas_witness :
    exSelf.mpEditEnginePool = some exEmptyPool ∧
      (harvestPageItem exEnv ⟨some ⟨0⟩, none, some ⟨1⟩⟩ exSelf =
          (nonNullAreas ⟨some ⟨0⟩, none, some ⟨1⟩⟩).foldlM
            (fun acc area => harvestArea exEnv area acc) exSelf ∧
        (∃ result, harvestPageItem exEnv ⟨some ⟨0⟩, none, some ⟨1⟩⟩ exSelf = some result ∧
          result.setTextCalls =
            exSelf.setTextCalls ++ nonNullAreas ⟨some ⟨0⟩, none, some ⟨1⟩⟩ ∧
          result.addCalls =
            exSelf.addCalls ++
              harvestTexts exEnv (nonNullAreas ⟨some ⟨0⟩, none, some ⟨1⟩⟩) exEmptyPool ∧
          result.mpEditEnginePool =
            some (poolAfter exEnv (nonNullAreas ⟨some ⟨0⟩, none, some ⟨1⟩⟩) exEmptyPool)) ∧
        nonNullAreas ⟨some ⟨0⟩, none, some ⟨1⟩⟩ =
          [(⟨some ⟨0⟩, none, some ⟨1⟩⟩ : ScPageHFItem).GetLeftArea,
            (⟨some ⟨0⟩, none, some ⟨1⟩⟩ : ScPageHFItem).GetCenterArea,
            (⟨some ⟨0⟩, none, some ⟨1⟩⟩ : ScPageHFItem).GetRightArea].filterMap id ∧
        harvestPageItem exEnv ⟨none, none, none⟩ exSelf = some exSelf) :=
  ⟨rfl, harvestPageItem_skips_null_areas exEnv ⟨some ⟨0⟩, none, some ⟨1⟩⟩ exSelf exEmptyPool rfl⟩

/-! ## The owned edit-engine pool -/

/-- C9, as stated, fails on a document whose page-style iterator is null, and on one whose
iterator yields no style: the constructor returns without any `EditEngine::CreatePool()`
call, and `mpEditEnginePool` stays null. -/
theorem ctor_no_style_creates_no_pool :
    (∃ pool, ctor exEnv (exExport none) true = some pool ∧
        pool.nCreatePool = 0 ∧ pool.nCreatePool ≠ 1 ∧ pool.mpEditEnginePool.isNone = true) ∧
      (∃ pool, ctor exEnv (exExport (some [])) true = some pool ∧
        pool.nCreatePool = 0 ∧ pool.nCreatePool ≠ 1 ∧ pool.mpEditEnginePool.isNone = true) :=
  ⟨⟨_, ctor_eq exEnv (exExport none) true, rfl, by decide, rfl⟩,
    ⟨_, ctor_eq exEnv (exExport (some [])) true, rfl, by decide, rfl⟩⟩

/-- C9, amended: the constructor calls `EditEngine::CreatePool()` exactly once when the
page-style iterator exists and yields a first style, and not at all otherwise (the owned
pool is non-null afterwards exactly in the first case); when created, that one pool receives
the `SetText` of every region of every page style and is the pool each region is harvested
from: the `Add` calls after the document-level ones are the harvests of the pool returned
by `CreatePool()`, threaded through all rendered texts in order. -/
theorem ctor_creates_pool_at_most_once (env : Env) (rExportP : ScXMLExport)
    (bEmbedFonts : Bool) :
    ∃ pool, ctor env rExportP bEmbedFonts = some pool ∧
      pool.nCreatePool =
        (if (iteratorStyles rExportP.GetDocument.CreatePageStyleIterator).isEmpty then 0
          else 1) ∧
      pool.mpEditEnginePool.isSome =
        !(iteratorStyles rExportP.GetDocument.CreatePageStyleIterator).isEmpty ∧
      pool.setTextCalls =
        pageAreas env (iteratorStyles rExportP.GetDocument.CreatePageStyleIterator) ∧
      pool.addCalls =
        documentFonts env rExportP.GetDocument ++
          harvestTexts env pool.setTextCalls env.CreatePool := by
  refine ⟨_, ctor_eq env rExportP bEmbedFonts, rfl, ?_, rfl, rfl⟩
  cases h : (iteratorStyles rExportP.GetDocument.CreatePageStyleIterator).isEmpty <;>
    simp [ctorSpec, h]

/-! ## Page styles sharing one item pool -/

/-- C10: the page-style phase reads a style only through `pStyle->GetPool()->GetPool()`: two
style sequences with the same sequence of item pools give the same result, whatever the
styles' own item sets are. For every style sequence the phase renders, style by style,
every non-null area of every item stored in the style's item pool under
`ATTR_PAGE_HEADERLEFT`, `ATTR_PAGE_FOOTERLEFT`, `ATTR_PAGE_HEADERRIGHT` and
`ATTR_PAGE_FOOTERRIGHT`, and harvests `EE_CHAR_FONTINFO`, `EE_CHAR_FONTINFO_CJK` and
`EE_CHAR_FONTINFO_CTL` after each. Consequently, when `SetText` determines the engine pool
from the loaded text alone and the `n >= 1` page styles all resolve to the item pool `P`,
the `Add` calls of the phase are the calls made for a single one of these styles, repeated
`n` times, and the areas stored in `P` are each rendered `n` times. -/
theorem pageStylePhase_same_pool (env : Env) (styles : List SfxStyleSheetBase)
    (self : ScXMLFontAutoStylePool_Impl) :
    (∀ others : List SfxStyleSheetBase,
        (others.map fun pStyle => pStyle.GetPool.GetPool) =
          (styles.map fun pStyle => pStyle.GetPool.GetPool) →
        pageStylePhase env (some others) self = pageStylePhase env (some styles) self) ∧
      (∃ result, pageStylePhase env (some styles) self = some result ∧
        result.setTextCalls =
          self.setTextCalls ++
            (styles.flatMap fun pStyle => poolAreas env pStyle.GetPool.GetPool) ∧
        result.addCalls =
          self.addCalls ++
            harvestTexts env (styles.flatMap fun pStyle => poolAreas env pStyle.GetPool.GetPool)
              env.CreatePool) ∧
      (∀ pagePool : SfxItemPool ScPageHFItem,
        poolAreas env pagePool =
          [env.ATTR_PAGE_HEADERLEFT, env.ATTR_PAGE_FOOTERLEFT, env.ATTR_PAGE_HEADERRIGHT,
            env.ATTR_PAGE_FOOTERRIGHT].flatMap fun nPageWhichId =>
            (pagePool.GetItemSurrogates nPageWhichId).flatMap fun pPageItem =>
              [pPageItem.GetLeftArea, pPageItem.GetCenterArea,
                pPageItem.GetRightArea].filterMap id) ∧
      (∀ enginePool, harvestTexts env [] enginePool = []) ∧
      (∀ area areas enginePool,
        harvestTexts env (area :: areas) enginePool =
          fontDescriptors
              [env.EE_CHAR_FONTINFO, env.EE_CHAR_FONTINFO_CJK, env.EE_CHAR_FONTINFO_CTL]
              (env.SetText area enginePool) false ++
            harvestTexts env areas (env.SetText area enginePool)) ∧
      (∀ P : SfxItemPool ScPageHFItem,
        (∀ t p q, env.SetText t p = env.SetText t q) →
        styles ≠ [] →
        (∀ pStyle ∈ styles, pStyle.GetPool.GetPool = P) →
        (∀ pStyle ∈ styles, ∃ single,
          pageStylePhase env (some [pStyle]) self = some single ∧
          single.addCalls =
            self.addCalls ++ harvestTexts env (poolAreas env P) env.CreatePool ∧
          single.setTextCalls = self.setTextCalls ++ poolAreas env P) ∧
        (∃ whole, pageStylePhase env (some styles) self = some whole ∧
          whole.addCalls =
            self.addCalls ++
              (List.replicate styles.length
                (harvestTexts env (poolAreas env P) env.CreatePool)).flatten ∧
          whole.setTextCalls =
            self.setTextCalls ++ (List.replicate styles.length (poolAreas env P)).flatten)) := by
  refine ⟨?_, ?_, fun _ => rfl, fun _ => rfl, fun _ _ _ => rfl, ?_⟩
  · intro others hmap
    have hlen : others.length = styles.length := by
      simpa using congrArg List.length hmap
    have hareas : pageAreas env others = pageAreas env styles := by
      rw [pageAreas_eq_map, pageAreas_eq_map, hmap]
    have hemp : others.isEmpty = styles.isEmpty := by
      cases others <;> cases styles <;> simp_all
    rw [pageStylePhase_eq, pageStylePhase_eq]
    simp only [iteratorStyles, Option.getD_some, hemp, hareas]
  · refine ⟨_, pageStylePhase_eq env (some styles) self, ?_, ?_⟩
    · cases styles with
      | nil => simp [iteratorStyles]
      | cons s rest => simp [iteratorStyles, rendered, pageAreas]
    · cases styles with
      | nil => simp [iteratorStyles, harvestTexts]
      | cons s rest => simp [iteratorStyles, rendered, pageAreas]
  · intro P hdet hne hpool
    have hempty : (iteratorStyles (some styles)).isEmpty = false := by
      cases styles with
      | nil => exact absurd rfl hne
      | cons s rest => rfl
    refine ⟨?_, ?_⟩
    · intro pStyle hs
      have h1 : pageAreas env [pStyle] = poolAreas env P := by
        simp [pageAreas, hpool pStyle hs]
      refine ⟨_, pageStylePhase_eq env (some [pStyle]) self, ?_, ?_⟩ <;>
        simp [iteratorStyles, rendered, h1]
    · refine ⟨_, pageStylePhase_eq env (some styles) self, ?_, ?_⟩
      · rw [if_neg (by simp [hempty])]
        simp only [iteratorStyles, Option.getD_some, rendered]
        rw [pageAreas_same_pool env styles P hpool, harvestTexts_replicate env hdet]
      · rw [if_neg (by simp [hempty])]
        simp only [iteratorStyles, Option.getD_some, rendered]
        rw [pageAreas_same_pool env styles P hpool]

theorem pageStylePhase_same_pool_witness :
    (∀ t p q, exEnv.SetText t p = exEnv.SetText t q) ∧
      [exStyle, exStyle2] ≠ [] ∧
      (∀ pStyle ∈ [exStyle, exStyle2], pStyle.GetPool.GetPool = exPagePool) ∧
      poolAreas exEnv exPagePool = [⟨0⟩, ⟨1⟩] ∧
      ((∀ pStyle ∈ [exStyle, exStyle2], ∃ single,
          pageStylePhase exEnv (some [pStyle]) exSelf = some single ∧
          single.addCalls =
            exSelf.addCalls ++
              harvestTexts exEnv (poolAreas exEnv exPagePool) exEnv.CreatePool ∧
          single.setTextCalls = exSelf.setTextCalls ++ poolAreas exEnv exPagePool) ∧
        (∃ whole, pageStylePhase exEnv (some [exStyle, exStyle2]) exSelf = some whole ∧
          whole.addCalls =
            exSelf.addCalls ++
              (List.replicate [exStyle, exStyle2].length
                (harvestTexts exEnv (poolAreas exEnv exPagePool) exEnv.CreatePool)).flatten ∧
          whole.setTextCalls =
            exSelf.setTextCalls ++
              (List.replicate [exStyle, exStyle2].length
                (poolAreas exEnv exPagePool)).flatten)) :=
  ⟨fun _ _ _ => rfl, by simp,
    fun pStyle hs => by
      simp only [List.mem_cons, List.mem_singleton, List.not_mem_nil, or_false] at hs
      rcases hs with rfl | rfl <;> rfl,
    by decide,
    (pageStylePhase_same_pool exEnv [exStyle, exStyle2] exSelf).2.2.2.2.2 exPagePool
      (fun _ _ _ => rfl) (by simp)
      (fun pStyle hs => by
        simp only [List.mem_cons, List.mem_singleton, List.not_mem_nil, or_false] at hs
        rcases hs with rfl | rfl <;> rfl)⟩

end XmlFontE
